import Mathlib

/-!
Shallow embedding of the VirtIO MMIO transport layer
(`src/transport/mmio.rs` of the `virtio-drivers` crate).

Register values are `u32` machine words, modelled as `Nat`; explicit
`% 2 ^ 32` / `% 2 ^ 64` appears wherever the Rust code truncates
(`as u32`) or wraps (`usize` subtraction in release mode).  Every
transport method is translated as a pure function from the register
block state to the new state, the returned value, and the exact ordered
list of hardware register accesses (the event trace), mirroring the
Rust method line by line.  A legacy `queue_set` whose `assert_eq!`
fires is modelled as `Option.none` with an empty event trace, since in
the source all assertions precede every register write.
-/

/-- Magic value expected in the first register, from the source:
`const MAGIC_VALUE: u32 = 0x7472_6976`. -/
def MAGIC_VALUE : Nat := 0x74726976

/-- Source constant `const LEGACY_VERSION: u32 = 1`. -/
def LEGACY_VERSION : Nat := 1

/-- Source constant `const MODERN_VERSION: u32 = 2`. -/
def MODERN_VERSION : Nat := 2

/-- Modelled from the spec: the crate-level `PAGE_SIZE` constant
(`crate::PAGE_SIZE`, not among the provided sources).  The legacy
interface is page based: the spec speaks of round-up-to-page and of the
descriptor page number, with the guest page fixed at 4 KiB. -/
def PAGE_SIZE : Nat := 4096

/-- Modelled from the spec: `size_of::<Descriptor>()` for the virtqueue
descriptor entry (`crate::queue::Descriptor`, not among the provided
sources).  A descriptor is an 8-byte address, a 4-byte length, a 2-byte
flags word and a 2-byte next index: 16 bytes, the `entry_size` of the
spec. -/
def DESCRIPTOR_SIZE : Nat := 16

/-- Modelled from the spec: the crate-level `align_up` helper
(round-up-to-page), not among the provided sources. -/
def align_up (size : Nat) : Nat := (size + PAGE_SIZE - 1) / PAGE_SIZE * PAGE_SIZE

/-- Wrapping 64-bit (`usize`) subtraction, the release-mode semantics of
`a - b` on machine words (`a`, `b` < 2 ^ 64). -/
def wrapSub (a b : Nat) : Nat := (a + 2 ^ 64 - b) % 2 ^ 64

/-- The version of the VirtIO MMIO transport supported by a device
(`enum MmioVersion`). -/
inductive MmioVersion where
  | legacy
  | modern
deriving DecidableEq

/-- An error encountered initialising a VirtIO MMIO transport
(`enum MmioError`). -/
inductive MmioError where
  | badMagic (magic : Nat)
  | unsupportedVersion (version : Nat)
  | zeroDeviceId
deriving DecidableEq

/-- Translation of `impl TryFrom<u32> for MmioVersion`. -/
def MmioVersion.try_from (version : Nat) : Except MmioError MmioVersion :=
  if version = LEGACY_VERSION then .ok .legacy
  else if version = MODERN_VERSION then .ok .modern
  else .error (.unsupportedVersion version)

/-- Modelled from the spec: the `DeviceType` enumeration of
`src/transport/mod.rs` (not among the provided sources).  Device-id
values 1..13 and 16..24 map one-to-one to the documented device types;
0 is Invalid. -/
inductive DeviceType where
  | invalid
  | network
  | block
  | console
  | entropySource
  | memoryBalloon
  | ioMemory
  | rpmsg
  | scsiHost
  | transport9p
  | mac80211
  | rprocSerial
  | virtioCaif
  | memoryBalloonV2
  | gpu
  | timer
  | inputDevice
  | socket
  | crypto
  | signalDist
  | pstore
  | iommu
  | memoryDevice
deriving DecidableEq

/-- Modelled from the spec: the numeric discriminant of each
`DeviceType` variant (network = 1 .. memory-balloon-v2 = 13,
GPU = 16 .. memory-device = 24, Invalid = 0). -/
def DeviceType.code : DeviceType → Nat
  | .invalid => 0
  | .network => 1
  | .block => 2
  | .console => 3
  | .entropySource => 4
  | .memoryBalloon => 5
  | .ioMemory => 6
  | .rpmsg => 7
  | .scsiHost => 8
  | .transport9p => 9
  | .mac80211 => 10
  | .rprocSerial => 11
  | .virtioCaif => 12
  | .memoryBalloonV2 => 13
  | .gpu => 16
  | .timer => 17
  | .inputDevice => 18
  | .socket => 19
  | .crypto => 20
  | .signalDist => 21
  | .pstore => 22
  | .iommu => 23
  | .memoryDevice => 24

/-- Modelled from the spec: the inverse table, i.e. the meaning of the
`transmute` of a `u8` discriminant in `device_type`.  Total: every
discriminant outside the documented ranges yields Invalid. -/
def DeviceType.ofCode : Nat → DeviceType
  | 1 => .network
  | 2 => .block
  | 3 => .console
  | 4 => .entropySource
  | 5 => .memoryBalloon
  | 6 => .ioMemory
  | 7 => .rpmsg
  | 8 => .scsiHost
  | 9 => .transport9p
  | 10 => .mac80211
  | 11 => .rprocSerial
  | 12 => .virtioCaif
  | 13 => .memoryBalloonV2
  | 16 => .gpu
  | 17 => .timer
  | 18 => .inputDevice
  | 19 => .socket
  | 20 => .crypto
  | 21 => .signalDist
  | 22 => .pstore
  | 23 => .iommu
  | 24 => .memoryDevice
  | _ => .invalid

/-- The named (non-reserved) registers of `struct VirtIOHeader`, in
declaration order.  The two 32-bit feature windows appear as the single
registers `deviceFeatures` / `driverFeatures` whose behaviour depends on
the corresponding selector, exactly as in the hardware layout. -/
inductive Reg where
  | magic
  | version
  | deviceId
  | vendorId
  | deviceFeatures
  | deviceFeaturesSel
  | driverFeatures
  | driverFeaturesSel
  | legacyGuestPageSize
  | queueSel
  | queueNumMax
  | queueNum
  | legacyQueueAlign
  | legacyQueuePfn
  | queueReady
  | queueNotify
  | interruptStatus
  | interruptAck
  | status
  | queueDescLow
  | queueDescHigh
  | queueDriverLow
  | queueDriverHigh
  | queueDeviceLow
  | queueDeviceHigh
  | configGeneration
deriving DecidableEq

/-- One hardware register access: the MMIO accesses are volatile, so the
trace records each access with its transferred value, in program
order. -/
inductive Event where
  | read (r : Reg) (v : Nat)
  | write (r : Reg) (v : Nat)
deriving DecidableEq

/-- The state of the register block (`struct VirtIOHeader`).  Read-only
registers hold the value the device presents; write-only registers hold
the value last written (the device-visible latch).  The device-features
window is backed by the two words `deviceFeatures0` / `deviceFeatures1`
selected by `deviceFeaturesSel`; symmetrically the written driver
features are latched into `driverFeatures0` / `driverFeatures1`
according to `driverFeaturesSel`.  All fields are `u32` values. -/
structure Header where
  magic : Nat
  version : Nat
  deviceId : Nat
  vendorId : Nat
  deviceFeatures0 : Nat
  deviceFeatures1 : Nat
  deviceFeaturesSel : Nat
  driverFeatures0 : Nat
  driverFeatures1 : Nat
  driverFeaturesSel : Nat
  legacyGuestPageSize : Nat
  queueSel : Nat
  queueNumMax : Nat
  queueNum : Nat
  legacyQueueAlign : Nat
  legacyQueuePfn : Nat
  queueReady : Nat
  queueNotify : Nat
  interruptStatus : Nat
  interruptAck : Nat
  status : Nat
  configGeneration : Nat
deriving DecidableEq

/-- Reading a register of the block.  Write-only registers are never
read by the driver; they read as 0 here.  Reading the device-features
window returns the word selected by the device-features selector. -/
def readReg (h : Header) : Reg → Nat
  | .magic => h.magic
  | .version => h.version
  | .deviceId => h.deviceId
  | .vendorId => h.vendorId
  | .deviceFeatures => if h.deviceFeaturesSel = 0 then h.deviceFeatures0 else h.deviceFeatures1
  | .deviceFeaturesSel => 0
  | .driverFeatures => 0
  | .driverFeaturesSel => 0
  | .legacyGuestPageSize => 0
  | .queueSel => 0
  | .queueNumMax => h.queueNumMax
  | .queueNum => 0
  | .legacyQueueAlign => 0
  | .legacyQueuePfn => h.legacyQueuePfn
  | .queueReady => h.queueReady
  | .queueNotify => 0
  | .interruptStatus => h.interruptStatus
  | .interruptAck => 0
  | .status => h.status
  | .queueDescLow => 0
  | .queueDescHigh => 0
  | .queueDriverLow => 0
  | .queueDriverHigh => 0
  | .queueDeviceLow => 0
  | .queueDeviceHigh => 0
  | .configGeneration => h.configGeneration

/-- Writing a register of the block.  Read-only registers ignore writes
(the driver never writes them).  Writing the driver-features window
latches the value into the word selected by the driver-features
selector.  The three modern queue address register pairs are latched
but have no further observable backing state needed by the claims, so
they are recorded in the event trace only. -/
def writeReg (h : Header) : Reg → Nat → Header
  | .magic, _ => h
  | .version, _ => h
  | .deviceId, _ => h
  | .vendorId, _ => h
  | .deviceFeatures, _ => h
  | .deviceFeaturesSel, v => { h with deviceFeaturesSel := v }
  | .driverFeatures, v =>
      if h.driverFeaturesSel = 0 then { h with driverFeatures0 := v }
      else { h with driverFeatures1 := v }
  | .driverFeaturesSel, v => { h with driverFeaturesSel := v }
  | .legacyGuestPageSize, v => { h with legacyGuestPageSize := v }
  | .queueSel, v => { h with queueSel := v }
  | .queueNumMax, _ => h
  | .queueNum, v => { h with queueNum := v }
  | .legacyQueueAlign, v => { h with legacyQueueAlign := v }
  | .legacyQueuePfn, v => { h with legacyQueuePfn := v }
  | .queueReady, v => { h with queueReady := v }
  | .queueNotify, v => { h with queueNotify := v }
  | .interruptStatus, _ => h
  | .interruptAck, v => { h with interruptAck := v }
  | .status, v => { h with status := v }
  | .queueDescLow, _ => h
  | .queueDescHigh, _ => h
  | .queueDriverLow, _ => h
  | .queueDriverHigh, _ => h
  | .queueDeviceLow, _ => h
  | .queueDeviceHigh, _ => h
  | .configGeneration, _ => h

/-- Translation of `struct MmioTransport`: the validated handle, carrying the register
block and the immutable protocol variant. -/
structure MmioTransport where
  header : Header
  version : MmioVersion
deriving DecidableEq

/-- Translation of `MmioTransport::new`: validate magic, then device id, then version,
in that order, short-circuiting at the first failure.  Returns the
construction result together with the trace of register reads
performed. -/
def MmioTransport.new (h : Header) : Except MmioError MmioTransport × List Event :=
  let magic := readReg h .magic
  if magic ≠ MAGIC_VALUE then
    (.error (.badMagic magic), [.read .magic magic])
  else
    let device_id := readReg h .deviceId
    if device_id = 0 then
      (.error .zeroDeviceId, [.read .magic magic, .read .deviceId device_id])
    else
      let version := readReg h .version
      (match MmioVersion.try_from version with
        | .ok v => .ok ⟨h, v⟩
        | .error e => .error e,
       [.read .magic magic, .read .deviceId device_id, .read .version version])

/-- Translation of `Transport::device_type` for `MmioTransport`: one read of the
device-id register; ids 1..=13 and 16..=24 are transmuted (after `as
u8` truncation) to the matching variant, everything else is Invalid. -/
def MmioTransport.device_type (t : MmioTransport) : DeviceType × List Event :=
  let x := readReg t.header .deviceId
  (if (1 ≤ x ∧ x ≤ 13) ∨ (16 ≤ x ∧ x ≤ 24) then DeviceType.ofCode (x % 2 ^ 8)
   else .invalid,
   [.read .deviceId x])

/-- Translation of `Transport::read_device_features`: selector 0, read low word,
selector 1, read high word, return `low + (high << 32)` (the `u64`
accumulation of the source; the halves are disjoint, so this is
`low | (high << 32)`). -/
def MmioTransport.read_device_features (t : MmioTransport) :
    MmioTransport × Nat × List Event :=
  let h1 := writeReg t.header .deviceFeaturesSel 0
  let lo := readReg h1 .deviceFeatures
  let h2 := writeReg h1 .deviceFeaturesSel 1
  let hi := readReg h2 .deviceFeatures
  (⟨h2, t.version⟩, lo + (hi <<< 32),
   [.write .deviceFeaturesSel 0, .read .deviceFeatures lo,
    .write .deviceFeaturesSel 1, .read .deviceFeatures hi])

/-- Translation of `Transport::write_driver_features`: selector 0, write the low half
(`driver_features as u32`), selector 1, write the high half
(`(driver_features >> 32) as u32`). -/
def MmioTransport.write_driver_features (t : MmioTransport) (driver_features : Nat) :
    MmioTransport × List Event :=
  let h1 := writeReg t.header .driverFeaturesSel 0
  let h2 := writeReg h1 .driverFeatures (driver_features % 2 ^ 32)
  let h3 := writeReg h2 .driverFeaturesSel 1
  let h4 := writeReg h3 .driverFeatures (driver_features >>> 32 % 2 ^ 32)
  (⟨h4, t.version⟩,
   [.write .driverFeaturesSel 0, .write .driverFeatures (driver_features % 2 ^ 32),
    .write .driverFeaturesSel 1, .write .driverFeatures (driver_features >>> 32 % 2 ^ 32)])

/-- Translation of `Transport::queue_set`.  The legacy arm checks the three
`assert_eq!` layout conditions (with wrapping `usize` subtraction)
before touching any register: a failing assertion is `none` with an
empty trace.  With the checks passed it writes queue selector, queue
size, alignment and page number, in order.  The modern arm writes the
selector, the size, the three addresses split into low/high `u32`
halves, then ready = 1. -/
def MmioTransport.queue_set (t : MmioTransport)
    (queue size descriptors driver_area device_area : Nat) :
    List Event × Option MmioTransport :=
  match t.version with
  | .legacy =>
    if wrapSub driver_area descriptors = DESCRIPTOR_SIZE * size then
      if wrapSub device_area descriptors =
          align_up (DESCRIPTOR_SIZE * size + 2 * (size + 3)) then
        let align := PAGE_SIZE
        let pfn := descriptors / PAGE_SIZE % 2 ^ 32
        if pfn * PAGE_SIZE = descriptors then
          let h1 := writeReg t.header .queueSel queue
          let h2 := writeReg h1 .queueNum size
          let h3 := writeReg h2 .legacyQueueAlign align
          let h4 := writeReg h3 .legacyQueuePfn pfn
          ([.write .queueSel queue, .write .queueNum size,
            .write .legacyQueueAlign align, .write .legacyQueuePfn pfn],
           some ⟨h4, t.version⟩)
        else ([], none)
      else ([], none)
    else ([], none)
  | .modern =>
    let h1 := writeReg t.header .queueSel queue
    let h2 := writeReg h1 .queueNum size
    let h3 := writeReg h2 .queueDescLow (descriptors % 2 ^ 32)
    let h4 := writeReg h3 .queueDescHigh (descriptors >>> 32 % 2 ^ 32)
    let h5 := writeReg h4 .queueDriverLow (driver_area % 2 ^ 32)
    let h6 := writeReg h5 .queueDriverHigh (driver_area >>> 32 % 2 ^ 32)
    let h7 := writeReg h6 .queueDeviceLow (device_area % 2 ^ 32)
    let h8 := writeReg h7 .queueDeviceHigh (device_area >>> 32 % 2 ^ 32)
    let h9 := writeReg h8 .queueReady 1
    ([.write .queueSel queue, .write .queueNum size,
      .write .queueDescLow (descriptors % 2 ^ 32),
      .write .queueDescHigh (descriptors >>> 32 % 2 ^ 32),
      .write .queueDriverLow (driver_area % 2 ^ 32),
      .write .queueDriverHigh (driver_area >>> 32 % 2 ^ 32),
      .write .queueDeviceLow (device_area % 2 ^ 32),
      .write .queueDeviceHigh (device_area >>> 32 % 2 ^ 32),
      .write .queueReady 1],
     some ⟨h9, t.version⟩)

/-- Translation of `Transport::queue_used`: write the queue selector first, then read
the legacy page-number register (legacy) or the ready register
(modern); the queue is in use when the value read is nonzero. -/
def MmioTransport.queue_used (t : MmioTransport) (queue : Nat) :
    MmioTransport × Bool × List Event :=
  let h1 := writeReg t.header .queueSel queue
  match t.version with
  | .legacy =>
    let pfn := readReg h1 .legacyQueuePfn
    (⟨h1, t.version⟩, pfn != 0, [.write .queueSel queue, .read .legacyQueuePfn pfn])
  | .modern =>
    let ready := readReg h1 .queueReady
    (⟨h1, t.version⟩, ready != 0, [.write .queueSel queue, .read .queueReady ready])

/-- Translation of `Transport::ack_interrupt`: read the interrupt status; if nonzero,
write the very same value to the acknowledge register and return true;
otherwise return false without writing. -/
def MmioTransport.ack_interrupt (t : MmioTransport) :
    MmioTransport × Bool × List Event :=
  let interrupt := readReg t.header .interruptStatus
  if interrupt ≠ 0 then
    (⟨writeReg t.header .interruptAck interrupt, t.version⟩, true,
     [.read .interruptStatus interrupt, .write .interruptAck interrupt])
  else
    (t, false, [.read .interruptStatus interrupt])

/-! Helper lemmas. -/

/-- Recombining disjoint 32-bit halves: for a low word below 2 ^ 32 the
bitwise or with a value shifted left by 32 is plain addition. -/
lemma lor_shl32 (a b : Nat) (ha : a < 2 ^ 32) : a ||| b <<< 32 = a + 2 ^ 32 * b := by
  apply Nat.eq_of_testBit_eq
  intro j
  rw [Nat.add_comm a (2 ^ 32 * b), Nat.testBit_mul_pow_two_add b ha j,
    Nat.testBit_or, Nat.testBit_shiftLeft]
  by_cases hj : j < 32
  · simp [hj, Nat.not_le.mpr hj]
  · have hj' : 32 ≤ j := Nat.not_lt.mp hj
    have hfalse : a.testBit j = false :=
      Nat.testBit_lt_two_pow (lt_of_lt_of_le ha (Nat.pow_le_pow_right (by norm_num) hj'))
    simp [hj, hj', hfalse]

/-- Variant of the recombination lemma oriented for rewriting the
accumulating addition of the source into the bitwise or of the spec. -/
lemma add_shl32_eq_lor (a b : Nat) (ha : a < 2 ^ 32) : a + b <<< 32 = a ||| b <<< 32 := by
  rw [lor_shl32 _ _ ha, Nat.shiftLeft_eq, Nat.mul_comm]

/-- The wrapping 64-bit subtraction equals v exactly when a = b + v, as
long as both sides fit in 64 bits. -/
lemma wrapSub_eq_iff (a b v : Nat) (ha : a < 2 ^ 64) (hbv : b + v < 2 ^ 64) :
    wrapSub a b = v ↔ a = b + v := by
  unfold wrapSub
  have h64 : (2 : Nat) ^ 64 = 18446744073709551616 := by norm_num
  rw [h64] at *
  omega

/-- align_up rounds up by less than one page. -/
lemma align_up_le (x : Nat) : align_up x ≤ x + 4095 := by
  unfold align_up PAGE_SIZE
  have hx : x + 4096 - 1 = x + 4095 := by omega
  rw [hx]
  exact Nat.div_mul_le_self _ _

/-- The legacy page-number check: the truncated page number times the
page size recovers the descriptor address exactly when the address is
page aligned and its page number fits in 32 bits. -/
lemma pfn_check_iff (D : Nat) :
    D / PAGE_SIZE % 2 ^ 32 * PAGE_SIZE = D ↔ PAGE_SIZE ∣ D ∧ D < 2 ^ 32 * PAGE_SIZE := by
  unfold PAGE_SIZE
  have h32 : (2 : Nat) ^ 32 = 4294967296 := by norm_num
  rw [h32]
  omega

/-- The three legacy assert_eq! conditions, taken together, are
equivalent to the exact arithmetic layout relations. -/
lemma legacy_checks_iff (N D A V : Nat) (hD : D < 2 ^ 64) (hA : A < 2 ^ 64)
    (hV : V < 2 ^ 64) (hN : N < 2 ^ 32) :
    (wrapSub A D = DESCRIPTOR_SIZE * N ∧
     wrapSub V D = align_up (DESCRIPTOR_SIZE * N + 2 * (N + 3)) ∧
     D / PAGE_SIZE % 2 ^ 32 * PAGE_SIZE = D) ↔
    (A = D + DESCRIPTOR_SIZE * N ∧
     V = D + align_up (DESCRIPTOR_SIZE * N + 2 * (N + 3)) ∧
     PAGE_SIZE ∣ D ∧ D < 2 ^ 32 * PAGE_SIZE) := by
  have hdesc : DESCRIPTOR_SIZE * N < 2 ^ 36 := by
    unfold DESCRIPTOR_SIZE
    calc 16 * N < 16 * 2 ^ 32 := by omega
    _ = 2 ^ 36 := by norm_num
  have halign : align_up (DESCRIPTOR_SIZE * N + 2 * (N + 3)) < 2 ^ 38 := by
    have h1 := align_up_le (DESCRIPTOR_SIZE * N + 2 * (N + 3))
    have h2 : 2 * (N + 3) < 2 ^ 34 := by
      have : (2 : Nat) ^ 33 = 8589934592 := by norm_num
      have : (2 : Nat) ^ 34 = 17179869184 := by norm_num
      omega
    have h36 : (2 : Nat) ^ 36 = 68719476736 := by norm_num
    have h34 : (2 : Nat) ^ 34 = 17179869184 := by norm_num
    have h38 : (2 : Nat) ^ 38 = 274877906944 := by norm_num
    omega
  constructor
  · rintro ⟨h1, h2, h3⟩
    have hDlt : D < 2 ^ 32 * PAGE_SIZE := ((pfn_check_iff D).mp h3).2
    have hDdvd : PAGE_SIZE ∣ D := ((pfn_check_iff D).mp h3).1
    have hDsmall : D < 2 ^ 44 := by
      have : (2 : Nat) ^ 32 * PAGE_SIZE = 2 ^ 44 := by unfold PAGE_SIZE; norm_num
      omega
    have hA' : A = D + DESCRIPTOR_SIZE * N := by
      rw [wrapSub_eq_iff A D _ hA ?_] at h1
      · exact h1
      · have h44 : (2 : Nat) ^ 44 = 17592186044416 := by norm_num
        have h36 : (2 : Nat) ^ 36 = 68719476736 := by norm_num
        have h64 : (2 : Nat) ^ 64 = 18446744073709551616 := by norm_num
        omega
    have hV' : V = D + align_up (DESCRIPTOR_SIZE * N + 2 * (N + 3)) := by
      rw [wrapSub_eq_iff V D _ hV ?_] at h2
      · exact h2
      · have h44 : (2 : Nat) ^ 44 = 17592186044416 := by norm_num
        have h38 : (2 : Nat) ^ 38 = 274877906944 := by norm_num
        have h64 : (2 : Nat) ^ 64 = 18446744073709551616 := by norm_num
        omega
    exact ⟨hA', hV', hDdvd, hDlt⟩
  · rintro ⟨h1, h2, h3, h4⟩
    refine ⟨?_, ?_, (pfn_check_iff D).mpr ⟨h3, h4⟩⟩
    · rw [wrapSub_eq_iff A D _ hA (by omega)]
      exact h1
    · rw [wrapSub_eq_iff V D _ hV (by omega)]
      exact h2

/-- A concrete register block used to instantiate the theorems: a
modern block device (id 2), vendor 0x1af4, feature words 1 and 7,
maximum queue size 256, with interrupt status 3 pending. -/
def hdrA : Header where
  magic := MAGIC_VALUE
  version := 2
  deviceId := 2
  vendorId := 0x1af4
  deviceFeatures0 := 1
  deviceFeatures1 := 7
  deviceFeaturesSel := 0
  driverFeatures0 := 0
  driverFeatures1 := 0
  driverFeaturesSel := 0
  legacyGuestPageSize := 0
  queueSel := 0
  queueNumMax := 256
  queueNum := 0
  legacyQueueAlign := 0
  legacyQueuePfn := 0
  queueReady := 0
  queueNotify := 0
  interruptStatus := 3
  interruptAck := 0
  status := 0
  configGeneration := 0

/-! Claim theorems. -/

/-- C3: read_device_features performs exactly: write 0 to the
device-feature selector, read the device-feature register as the low
word, write 1 to the selector, read it as the high word, and returns
low ||| (high <<< 32), for every pair of 32-bit words the device
presents. -/
theorem read_device_features_spec (t : MmioTransport)
    (hlo : t.header.deviceFeatures0 < 2 ^ 32) :
    (t.read_device_features).2.1 =
      (t.header.deviceFeatures0 ||| t.header.deviceFeatures1 <<< 32) ∧
    (t.read_device_features).2.2 =
      [.write .deviceFeaturesSel 0, .read .deviceFeatures t.header.deviceFeatures0,
       .write .deviceFeaturesSel 1, .read .deviceFeatures t.header.deviceFeatures1] := by
  refine ⟨?_, rfl⟩
  have hval : (t.read_device_features).2.1 =
      t.header.deviceFeatures0 + t.header.deviceFeatures1 <<< 32 := rfl
  rw [hval, add_shl32_eq_lor _ _ hlo]

theorem read_device_features_spec_app :
    (MmioTransport.read_device_features ⟨hdrA, .modern⟩).2.1 = (1 ||| 7 <<< 32) ∧
    (MmioTransport.read_device_features ⟨hdrA, .modern⟩).2.2 =
      [.write .deviceFeaturesSel 0, .read .deviceFeatures 1,
       .write .deviceFeaturesSel 1, .read .deviceFeatures 7] :=
  read_device_features_spec ⟨hdrA, .modern⟩ (by decide)

/-- C4: write_driver_features f writes exactly the low 32 bits of f
after selector 0, then the high 32 bits after selector 1, and the two
latched halves recomposed as low ||| (high <<< 32) equal f exactly, for
every 64-bit mask f. -/
theorem write_driver_features_roundtrip (t : MmioTransport) (f : Nat)
    (hf : f < 2 ^ 64) :
    ((t.write_driver_features f).1.header.driverFeatures0 |||
      (t.write_driver_features f).1.header.driverFeatures1 <<< 32) = f ∧
    (t.write_driver_features f).2 =
      [.write .driverFeaturesSel 0, .write .driverFeatures (f % 2 ^ 32),
       .write .driverFeaturesSel 1, .write .driverFeatures (f >>> 32 % 2 ^ 32)] := by
  refine ⟨?_, rfl⟩
  have hdiv : f >>> 32 % 2 ^ 32 = f / 2 ^ 32 := by
    rw [Nat.shiftRight_eq_div_pow]
    refine Nat.mod_eq_of_lt (Nat.div_lt_of_lt_mul ?_)
    calc f < 2 ^ 64 := hf
    _ = 2 ^ 32 * 2 ^ 32 := by norm_num
  have h0 : (t.write_driver_features f).1.header.driverFeatures0 = f % 2 ^ 32 := rfl
  have h1 : (t.write_driver_features f).1.header.driverFeatures1 = f >>> 32 % 2 ^ 32 := rfl
  rw [h0, h1, hdiv, lor_shl32 _ _ (Nat.mod_lt f (by norm_num))]
  exact Nat.mod_add_div f (2 ^ 32)

theorem write_driver_features_roundtrip_app :
    ((MmioTransport.write_driver_features ⟨hdrA, .modern⟩
        81985529216486895).1.header.driverFeatures0 |||
      (MmioTransport.write_driver_features ⟨hdrA, .modern⟩
        81985529216486895).1.header.driverFeatures1 <<< 32) = 81985529216486895 ∧
    (MmioTransport.write_driver_features ⟨hdrA, .modern⟩ 81985529216486895).2 =
      [.write .driverFeaturesSel 0, .write .driverFeatures (81985529216486895 % 2 ^ 32),
       .write .driverFeaturesSel 1,
       .write .driverFeatures (81985529216486895 >>> 32 % 2 ^ 32)] :=
  write_driver_features_roundtrip ⟨hdrA, .modern⟩ 81985529216486895 (by decide)

/-- C6: ack_interrupt returns false and performs no register write when
the interrupt status is 0, and returns true and writes back exactly the
observed value to the interrupt-ack register when it is nonzero. -/
theorem ack_interrupt_spec (t : MmioTransport) :
    (t.header.interruptStatus = 0 →
      t.ack_interrupt = (t, false, [.read .interruptStatus 0])) ∧
    (t.header.interruptStatus ≠ 0 →
      (t.ack_interrupt).2.1 = true ∧
      (t.ack_interrupt).2.2 =
        [.read .interruptStatus t.header.interruptStatus,
         .write .interruptAck t.header.interruptStatus] ∧
      (t.ack_interrupt).1.header =
        { t.header with interruptAck := t.header.interruptStatus }) := by
  unfold MmioTransport.ack_interrupt
  constructor
  · intro h0
    simp [readReg, h0]
  · intro hne
    simp [readReg, writeReg, hne]

theorem ack_interrupt_spec_app :
    (MmioTransport.ack_interrupt ⟨hdrA, .modern⟩).2.1 = true ∧
    (MmioTransport.ack_interrupt ⟨hdrA, .modern⟩).2.2 =
      [.read .interruptStatus 3, .write .interruptAck 3] ∧
    (MmioTransport.ack_interrupt ⟨hdrA, .modern⟩).1.header =
      { hdrA with interruptAck := 3 } :=
  (ack_interrupt_spec ⟨hdrA, .modern⟩).2 (by decide)

/-- C9: queue_used is not a pure query: it first writes q to the
queue-selector register, and only then reads the legacy page-number
register (legacy) or the queue-ready register (modern), returning true
exactly when the value read is nonzero. -/
theorem queue_used_effect_spec (t : MmioTransport) (q : Nat) :
    (t.queue_used q).1.header = { t.header with queueSel := q } ∧
    (t.version = .legacy →
      (t.queue_used q).2.2 =
        [.write .queueSel q, .read .legacyQueuePfn t.header.legacyQueuePfn] ∧
      ((t.queue_used q).2.1 = true ↔ t.header.legacyQueuePfn ≠ 0)) ∧
    (t.version = .modern →
      (t.queue_used q).2.2 =
        [.write .queueSel q, .read .queueReady t.header.queueReady] ∧
      ((t.queue_used q).2.1 = true ↔ t.header.queueReady ≠ 0)) := by
  unfold MmioTransport.queue_used
  rcases t with ⟨h, v⟩
  cases v <;> simp [readReg, writeReg]

theorem queue_used_effect_spec_app :
    (MmioTransport.queue_used ⟨hdrA, .legacy⟩ 5).2.2 =
      [.write .queueSel 5, .read .legacyQueuePfn 0] ∧
    ((MmioTransport.queue_used ⟨hdrA, .legacy⟩ 5).2.1 = true ↔ (0 : Nat) ≠ 0) :=
  (queue_used_effect_spec ⟨hdrA, .legacy⟩ 5).2.1 rfl

/-- On the documented id ranges the transmuted variant carries exactly
the id as its discriminant, and is never Invalid. -/
lemma ofCode_code (v : Nat) (hv : (1 ≤ v ∧ v ≤ 13) ∨ (16 ≤ v ∧ v ≤ 24)) :
    DeviceType.code (DeviceType.ofCode (v % 2 ^ 8)) = v ∧
    DeviceType.ofCode (v % 2 ^ 8) ≠ .invalid := by
  rcases hv with ⟨h1, h2⟩ | ⟨h1, h2⟩ <;> interval_cases v <;> decide

/-- C5: device_type maps ids 1..13 and 16..24 one-to-one to their
documented device type (witnessed by the numeric discriminant being a
left inverse), maps every other id to Invalid, is a pure function of
the numeric id, and performs no register access beyond the single
device-id read. -/
theorem device_type_spec (t : MmioTransport) :
    ((1 ≤ t.header.deviceId ∧ t.header.deviceId ≤ 13) ∨
        (16 ≤ t.header.deviceId ∧ t.header.deviceId ≤ 24) →
      DeviceType.code (t.device_type).1 = t.header.deviceId ∧
      (t.device_type).1 ≠ .invalid) ∧
    (¬ ((1 ≤ t.header.deviceId ∧ t.header.deviceId ≤ 13) ∨
        (16 ≤ t.header.deviceId ∧ t.header.deviceId ≤ 24)) →
      (t.device_type).1 = .invalid) ∧
    (t.device_type).2 = [.read .deviceId t.header.deviceId] ∧
    (∀ t' : MmioTransport, t'.header.deviceId = t.header.deviceId →
      (t'.device_type).1 = (t.device_type).1) := by
  refine ⟨?_, ?_, rfl, ?_⟩
  · intro hv
    have : (t.device_type).1 = DeviceType.ofCode (t.header.deviceId % 2 ^ 8) := by
      unfold MmioTransport.device_type
      simp [readReg, hv]
    rw [this]
    exact ofCode_code _ hv
  · intro hv
    unfold MmioTransport.device_type
    simp [readReg, hv]
  · intro t' ht
    unfold MmioTransport.device_type
    simp [readReg, ht]

theorem device_type_spec_app :
    DeviceType.code (MmioTransport.device_type ⟨hdrA, .modern⟩).1 = 2 ∧
    (MmioTransport.device_type ⟨hdrA, .modern⟩).1 ≠ .invalid :=
  (device_type_spec ⟨hdrA, .modern⟩).1 (by decide)

/-- C1: construction fails with BadMagic(actual) exactly when the magic
register differs from 0x74726976, before any other register is even
read; otherwise with ZeroDeviceId exactly when the device id is 0,
before the version is read; otherwise with UnsupportedVersion(v)
exactly when the version v is neither 1 nor 2; otherwise it succeeds,
Legacy for version 1 and Modern for version 2. -/
theorem new_validation_spec (h : Header) :
    (h.magic ≠ MAGIC_VALUE →
      MmioTransport.new h = (.error (.badMagic h.magic), [.read .magic h.magic])) ∧
    (h.magic = MAGIC_VALUE → h.deviceId = 0 →
      MmioTransport.new h =
        (.error .zeroDeviceId, [.read .magic h.magic, .read .deviceId 0])) ∧
    (h.magic = MAGIC_VALUE → h.deviceId ≠ 0 → h.version ≠ 1 → h.version ≠ 2 →
      (MmioTransport.new h).1 = .error (.unsupportedVersion h.version)) ∧
    (h.magic = MAGIC_VALUE → h.deviceId ≠ 0 → h.version = 1 →
      (MmioTransport.new h).1 = .ok ⟨h, .legacy⟩) ∧
    (h.magic = MAGIC_VALUE → h.deviceId ≠ 0 → h.version = 2 →
      (MmioTransport.new h).1 = .ok ⟨h, .modern⟩) ∧
    (∀ m, (MmioTransport.new h).1 = .error (.badMagic m) →
      m = h.magic ∧ h.magic ≠ MAGIC_VALUE) ∧
    ((MmioTransport.new h).1 = .error .zeroDeviceId →
      h.magic = MAGIC_VALUE ∧ h.deviceId = 0) ∧
    (∀ v, (MmioTransport.new h).1 = .error (.unsupportedVersion v) →
      v = h.version ∧ h.magic = MAGIC_VALUE ∧ h.deviceId ≠ 0 ∧ v ≠ 1 ∧ v ≠ 2) := by
  unfold MmioTransport.new MmioVersion.try_from LEGACY_VERSION MODERN_VERSION
  by_cases hm : h.magic = MAGIC_VALUE <;>
    by_cases hd : h.deviceId = 0 <;>
      by_cases h1 : h.version = 1 <;>
        by_cases h2 : h.version = 2 <;>
          simp_all [readReg]

theorem new_validation_spec_app :
    MmioTransport.new { hdrA with magic := 0xdeadbeef } =
      (.error (.badMagic 0xdeadbeef), [.read .magic 0xdeadbeef]) :=
  (new_validation_spec { hdrA with magic := 0xdeadbeef }).1 (by decide)

/-- Splitting a 64-bit value into its truncated low and high words and
recomposing them recovers the value. -/
lemma halves (x : Nat) (hx : x < 2 ^ 64) :
    x % 2 ^ 32 + 2 ^ 32 * (x >>> 32 % 2 ^ 32) = x := by
  have hdiv : x >>> 32 % 2 ^ 32 = x / 2 ^ 32 := by
    rw [Nat.shiftRight_eq_div_pow]
    refine Nat.mod_eq_of_lt (Nat.div_lt_of_lt_mul ?_)
    calc x < 2 ^ 64 := hx
    _ = 2 ^ 32 * 2 ^ 32 := by norm_num
  rw [hdiv]
  exact Nat.mod_add_div x (2 ^ 32)

/-- C2: a Legacy queue_set passes its layout check only if the driver
area sits at D + entry_size * N, the device area at
D + round_up_to_page(entry_size * N + 2 * (N + 3)), and D is page
aligned (a violation aborts, none); when the check passes it performs
exactly the writes select queue, queue size, alignment = page size,
descriptor page number D / page_size, in that order. -/
theorem legacy_queue_set_spec (h : Header) (q N D A V : Nat)
    (hD : D < 2 ^ 64) (hA : A < 2 ^ 64) (hV : V < 2 ^ 64) (hN : N < 2 ^ 32)
    (hsome : (MmioTransport.queue_set ⟨h, .legacy⟩ q N D A V).2.isSome = true) :
    (A = D + DESCRIPTOR_SIZE * N ∧
     V = D + align_up (DESCRIPTOR_SIZE * N + 2 * (N + 3)) ∧
     PAGE_SIZE ∣ D) ∧
    (MmioTransport.queue_set ⟨h, .legacy⟩ q N D A V).1 =
      [.write .queueSel q, .write .queueNum N,
       .write .legacyQueueAlign PAGE_SIZE, .write .legacyQueuePfn (D / PAGE_SIZE)] := by
  have hiff := legacy_checks_iff N D A V hD hA hV hN
  simp only [MmioTransport.queue_set] at hsome ⊢
  split_ifs at hsome ⊢ with h1 h2 h3
  · obtain ⟨hA', hV', hdvd, hlt⟩ := hiff.mp ⟨h1, h2, h3⟩
    refine ⟨⟨hA', hV', hdvd⟩, ?_⟩
    have hmod : D / PAGE_SIZE % 2 ^ 32 = D / PAGE_SIZE := by
      refine Nat.mod_eq_of_lt (Nat.div_lt_of_lt_mul ?_)
      rw [Nat.mul_comm] at hlt
      exact hlt
    rw [hmod]
  · simp at hsome
  · simp at hsome
  · simp at hsome

theorem legacy_queue_set_spec_app :
    ((4160 : Nat) = 4096 + DESCRIPTOR_SIZE * 4 ∧
     (8192 : Nat) = 4096 + align_up (DESCRIPTOR_SIZE * 4 + 2 * (4 + 3)) ∧
     PAGE_SIZE ∣ 4096) ∧
    (MmioTransport.queue_set ⟨hdrA, .legacy⟩ 0 4 4096 4160 8192).1 =
      [.write .queueSel 0, .write .queueNum 4,
       .write .legacyQueueAlign PAGE_SIZE, .write .legacyQueuePfn (4096 / PAGE_SIZE)] :=
  legacy_queue_set_spec hdrA 0 4 4096 4160 8192 (by decide) (by decide) (by decide)
    (by decide) (by decide)

/-- C8: a Legacy queue_set whose arguments violate any of the geometric
layout constraints aborts before any register is written: it performs
no register access at all and yields no transport, so queue selector,
queue size, alignment and page number are all left unchanged. -/
theorem legacy_queue_set_abort_spec (h : Header) (q N D A V : Nat)
    (hD : D < 2 ^ 64) (hA : A < 2 ^ 64) (hV : V < 2 ^ 64) (hN : N < 2 ^ 32)
    (hviol : ¬ (A = D + DESCRIPTOR_SIZE * N ∧
                V = D + align_up (DESCRIPTOR_SIZE * N + 2 * (N + 3)) ∧
                PAGE_SIZE ∣ D ∧ D < 2 ^ 32 * PAGE_SIZE)) :
    MmioTransport.queue_set ⟨h, .legacy⟩ q N D A V = ([], none) := by
  have hiff := legacy_checks_iff N D A V hD hA hV hN
  simp only [MmioTransport.queue_set]
  split_ifs with h1 h2 h3
  · exact absurd (hiff.mp ⟨h1, h2, h3⟩) hviol
  · rfl
  · rfl
  · rfl

theorem legacy_queue_set_abort_spec_app :
    MmioTransport.queue_set ⟨hdrA, .legacy⟩ 0 4 4096 4096 8192 = ([], none) :=
  legacy_queue_set_abort_spec hdrA 0 4 4096 4096 8192 (by decide) (by decide)
    (by decide) (by decide) (by decide)

/-- C10: the page number written by a Legacy queue_set is the
descriptor address divided by the page size, truncated to 32 bits; the
assertion that the page number times the page size recovers the address
therefore rejects both every unaligned descriptor address and every
page-aligned address at or above 2 ^ 32 pages. -/
theorem legacy_pfn_truncation_spec :
    (∀ D : Nat, D / PAGE_SIZE % 2 ^ 32 * PAGE_SIZE = D ↔
      PAGE_SIZE ∣ D ∧ D < 2 ^ 32 * PAGE_SIZE) ∧
    (∀ (h : Header) (q N D A V : Nat), PAGE_SIZE ∣ D → 2 ^ 32 * PAGE_SIZE ≤ D →
      (MmioTransport.queue_set ⟨h, .legacy⟩ q N D A V).2 = none) ∧
    (∀ (h : Header) (q N D A V : Nat), ¬ PAGE_SIZE ∣ D →
      (MmioTransport.queue_set ⟨h, .legacy⟩ q N D A V).2 = none) := by
  refine ⟨pfn_check_iff, ?_, ?_⟩
  · intro h q N D A V hdvd hge
    simp only [MmioTransport.queue_set]
    split_ifs with h1 h2 h3
    · exfalso
      have hlt := ((pfn_check_iff D).mp h3).2
      omega
    · rfl
    · rfl
    · rfl
  · intro h q N D A V hndvd
    simp only [MmioTransport.queue_set]
    split_ifs with h1 h2 h3
    · exact absurd ((pfn_check_iff D).mp h3).1 hndvd
    · rfl
    · rfl
    · rfl

theorem legacy_pfn_truncation_spec_app :
    (MmioTransport.queue_set ⟨hdrA, .legacy⟩ 0 0 17592186044416 0 0).2 = none :=
  legacy_pfn_truncation_spec.2.1 hdrA 0 0 17592186044416 0 0
    ⟨4294967296, rfl⟩ (by decide)

/-- C7: a Modern queue_set, for any three 64-bit addresses and any
queue index and size, writes each address split into its low and high
32-bit halves (the halves recompose to exactly the address), then
writes 1 to the queue-ready register, with no alignment or offset
relation required; afterwards queue_used for that queue reports
true. -/
theorem modern_queue_set_spec (h : Header) (q N D A V : Nat)
    (hD : D < 2 ^ 64) (hA : A < 2 ^ 64) (hV : V < 2 ^ 64) :
    (MmioTransport.queue_set ⟨h, .modern⟩ q N D A V).1 =
      [.write .queueSel q, .write .queueNum N,
       .write .queueDescLow (D % 2 ^ 32), .write .queueDescHigh (D >>> 32 % 2 ^ 32),
       .write .queueDriverLow (A % 2 ^ 32), .write .queueDriverHigh (A >>> 32 % 2 ^ 32),
       .write .queueDeviceLow (V % 2 ^ 32), .write .queueDeviceHigh (V >>> 32 % 2 ^ 32),
       .write .queueReady 1] ∧
    D % 2 ^ 32 + 2 ^ 32 * (D >>> 32 % 2 ^ 32) = D ∧
    A % 2 ^ 32 + 2 ^ 32 * (A >>> 32 % 2 ^ 32) = A ∧
    V % 2 ^ 32 + 2 ^ 32 * (V >>> 32 % 2 ^ 32) = V ∧
    ∃ t', (MmioTransport.queue_set ⟨h, .modern⟩ q N D A V).2 = some t' ∧
      (t'.queue_used q).2.1 = true :=
  ⟨rfl, halves D hD, halves A hA, halves V hV, _, rfl, rfl⟩

theorem modern_queue_set_spec_app :
    ∃ t', (MmioTransport.queue_set ⟨hdrA, .modern⟩ 1 128
        4294967301 8589934600 12884901890).2 = some t' ∧
      (t'.queue_used 1).2.1 = true :=
  (modern_queue_set_spec hdrA 1 128 4294967301 8589934600 12884901890
    (by decide) (by decide) (by decide)).2.2.2.2
